import Mathlib

/-!
Shallow embedding of the quiz-bot session engine (`src/bot.py`) and proofs of
the spec's claims about it.

Conventions of the embedding:
* Python dicts keyed by user id are association lists `List (Nat × α)`;
  assignment replaces any entry with the same key, `del` removes it.
* Python `random.shuffle` is an external source of randomness; we pass the
  shuffle as an oracle function and, in theorems, hypothesize that it
  produces a permutation of its input.
* Telegram/IO effects (sending polls, replies) are modelled by their
  data-relevant results only: a freshly published poll contributes a fresh
  poll id, passed in as a parameter.
* Handlers that can raise an uncaught Python exception are `Option`-valued:
  `none` models the exception escaping (with in-place mutations up to that
  point recorded where the claim needs them).
-/

namespace QuizBot

/-- A question record as built by the parsers in `bot.py`
(`{"question": ..., "options": ..., "correct": ..., "explanation": ...}`). -/
structure Question where
  question : String
  options : List String
  correct : Nat
  explanation : String
deriving DecidableEq, Repr

/-- A stored quiz row (`quizzes` table): name, parsed questions, timer. -/
structure Quiz where
  quiz_name : String
  questions : List Question
  time_per_question : Nat
deriving DecidableEq, Repr

/-- A per-user session as created by `start_quiz_button` (`user_sessions[user_id]`).
`started_at` is an abstract timestamp. -/
structure Session where
  quiz_id : String
  chat_id : Nat
  questions : List Question
  index : Nat
  score : Nat
  time_per_question : Nat
  started_at : Nat
  answered : Finset Nat
  poll_to_index : List (String × Nat)
deriving DecidableEq

/-- A row of the `quiz_results` table. -/
structure ResultRow where
  quiz_id : String
  user_id : Nat
  score : Nat
  total_questions : Nat
  duration_seconds : Nat
  started_at : Nat
  finished_at : Nat
deriving DecidableEq, Repr

-- -------------------- dict helpers --------------------

/-- Python dict assignment `d[k] = v` on an association-list model:
the key is rebound, any previous binding disappears. -/
def setA {α : Type} (l : List (Nat × α)) (k : Nat) (v : α) : List (Nat × α) :=
  (k, v) :: l.filter (fun p => p.1 != k)

/-- Python `del d[k]` on the association-list model. -/
def delA {α : Type} (l : List (Nat × α)) (k : Nat) : List (Nat × α) :=
  l.filter (fun p => p.1 != k)

-- -------------------- HELPERS (bot.py lines 148-180) --------------------

/-- Python `str.upper` restricted to ASCII, written over `String.data` so the
kernel can evaluate it. -/
def py_toUpper (s : String) : String := ⟨s.data.map Char.toUpper⟩

/-- Python `str.lower` restricted to ASCII (kernel-evaluable). -/
def py_toLower (s : String) : String := ⟨s.data.map Char.toLower⟩

/-- Python `str.strip` (kernel-evaluable): drop whitespace at both ends. -/
def py_strip (s : String) : String :=
  ⟨((s.data.dropWhile Char.isWhitespace).reverse.dropWhile Char.isWhitespace).reverse⟩

/-- Python `int(...)` on an all-digits string (kernel-evaluable). -/
def py_int_of_digits (s : String) : Nat :=
  s.data.foldl (fun n c => n * 10 + (c.toNat - 48)) 0

/-- Python `str.endswith` (kernel-evaluable). -/
def py_endsWith (s sfx : String) : Bool := sfx.data.isSuffixOf s.data

/-- Python `str.isdigit` as used on the (already stripped) timer text:
nonempty and all characters decimal digits. -/
def py_isdigit (s : String) : Bool :=
  s.length > 0 && s.data.all Char.isDigit

/-- Source `shuffle_question_options` (bot.py 166-180), with the shuffled copy of the
options list (`new_options = options.copy(); random.shuffle(new_options)`)
passed in as `new_options`.  `options[correct_index]` raises in Python when
`correct_index` is out of range; the embedding is total via `getD` and the
theorems hypothesize the in-range case.  `new_options.index(correct_option)`
is `List.indexOf`: the first occurrence. -/
def shuffle_question_options (question : Question) (new_options : List String) : Question :=
  let options := question.options
  let correct_index := question.correct
  let correct_option := options.getD correct_index ""
  let new_correct_index := new_options.indexOf correct_option
  { question with options := new_options, correct := new_correct_index }

-- -------------------- PARSERS (bot.py lines 183-429) --------------------

/-- The letter-to-index map `{"A": 0, "B": 1, "C": 2, "D": 3}` shared by the
three parsers; `none` models `correct_letter not in correct_map`. -/
def correct_map (letter : String) : Option Nat :=
  if letter = "A" then some 0
  else if letter = "B" then some 1
  else if letter = "C" then some 2
  else if letter = "D" then some 3
  else none

/-- The regex-extraction results for one `---`-separated block of the old DOCX
format (bot.py 185-238).  Each field is what the corresponding `re.search`
yields on the block: `q_match` for `Q:\s*(.+)`, `tf_match` for `TYPE:\s*TF`,
`explanation_match` for `EXPLANATION:\s*(.+)`, `answer_match` for
`ANSWER:\s*(.+)`, and `opt_A` .. `opt_D` for `A)\s*(.+)` .. `D)\s*(.+)`
(group 1 in each case, not yet stripped). -/
structure RawBlock where
  q_match : Option String
  tf_match : Bool
  explanation_match : Option String
  answer_match : Option String
  opt_A : Option String
  opt_B : Option String
  opt_C : Option String
  opt_D : Option String
deriving DecidableEq, Repr

/-- The per-block body of `parse_docx_old_format` (bot.py 189-236): `none`
models `continue`.  Note the multiple-choice branch checks
`len(options) >= 2` and membership of the answer letter in `correct_map`
but — unlike `parse_docx_table` and `parse_xlsx` — never checks
`correct < len(options)`. -/
def parse_block_old_format (b : RawBlock) : Option Question :=
  match b.q_match with
  | none => none
  | some qraw =>
    let question_text := py_strip qraw
    let explanation :=
      match b.explanation_match with
      | some e => py_strip e
      | none => "No explanation provided."
    match b.answer_match with
    | none => none
    | some araw =>
      let answer_raw := py_strip araw
      if b.tf_match then
        let options := ["True", "False"]
        let correct := if py_toLower answer_raw = "true" then 0 else 1
        some { question := question_text, options := options,
               correct := correct, explanation := explanation }
      else
        let options :=
          ([b.opt_A, b.opt_B, b.opt_C, b.opt_D].filterMap id).map py_strip
        if options.length < 2 then none
        else
          let correct_letter := py_strip (py_toUpper answer_raw)
          match correct_map correct_letter with
          | none => none
          | some correct =>
            some { question := question_text, options := options,
                   correct := correct, explanation := explanation }

/-- Source `parse_docx_old_format` (bot.py 185-238) over the extracted blocks. -/
def parse_docx_old_format (blocks : List RawBlock) : List Question :=
  blocks.filterMap parse_block_old_format

/-- One data row of a DOCX table in the new format (bot.py 262-266, 292-295):
each field is the `get_cell` result for the named column, i.e. already
`safe_str`-stripped text (empty string when the column is absent). -/
structure TableRow where
  type_cell : String
  question_cell : String
  correct_cell : String
  explanation_cell : String
  a_cell : String
  b_cell : String
  c_cell : String
  d_cell : String
deriving DecidableEq, Repr

/-- The per-row body of `parse_docx_table` (bot.py 262-319): `none` models
`continue`. -/
def parse_table_row (r : TableRow) : Option Question :=
  let q_type := py_toUpper r.type_cell
  let q_text := r.question_cell
  let correct_val := r.correct_cell
  let explanation :=
    if r.explanation_cell = "" then "No explanation provided." else r.explanation_cell
  if q_text = "" then none
  else if q_type = "TF" then
    if py_toLower correct_val = "true" then
      some { question := q_text, options := ["True", "False"],
             correct := 0, explanation := explanation }
    else if py_toLower correct_val = "false" then
      some { question := q_text, options := ["True", "False"],
             correct := 1, explanation := explanation }
    else none
  else
    let options :=
      (([r.a_cell, r.b_cell, r.c_cell, r.d_cell].map py_strip).filter
        (fun opt => opt != ""))
    if options.length < 2 then none
    else
      match correct_map (py_strip (py_toUpper correct_val)) with
      | none => none
      | some correct =>
        if correct ≥ options.length then none
        else
          some { question := q_text, options := options,
                 correct := correct, explanation := explanation }

/-- Source `parse_docx_table` (bot.py 241-321) over the extracted data rows of the
tables whose header row passed the required-columns check. -/
def parse_docx_table (rows : List TableRow) : List Question :=
  rows.filterMap parse_table_row

/-- The per-row body of `parse_xlsx` (bot.py 370-427); the row fields are the
`safe_str` results for the cells of the named columns (empty when the
column is absent).  The logic is the same as `parse_table_row`. -/
def parse_xlsx_row (r : TableRow) : Option Question :=
  let q_type := py_toUpper r.type_cell
  let q_text := r.question_cell
  let correct_val := r.correct_cell
  let explanation :=
    if r.explanation_cell = "" then "No explanation provided." else r.explanation_cell
  if q_text = "" then none
  else if q_type = "TF" then
    if py_toLower correct_val = "true" then
      some { question := q_text, options := ["True", "False"],
             correct := 0, explanation := explanation }
    else if py_toLower correct_val = "false" then
      some { question := q_text, options := ["True", "False"],
             correct := 1, explanation := explanation }
    else none
  else
    let options :=
      (([r.a_cell, r.b_cell, r.c_cell, r.d_cell].map py_strip).filter
        (fun opt => opt != ""))
    if options.length < 2 then none
    else
      match correct_map (py_strip (py_toUpper correct_val)) with
      | none => none
      | some correct =>
        if correct ≥ options.length then none
        else
          some { question := q_text, options := options,
                 correct := correct, explanation := explanation }

/-- Source `parse_xlsx` (bot.py 343-429) over the extracted sheet rows (given the
header check passed; it returns `[]` otherwise). -/
def parse_xlsx (rows : List TableRow) : List Question :=
  rows.filterMap parse_xlsx_row

-- -------------------- RANKING (bot.py lines 108-145, 669-694) --------------------

/-- The `WHERE` predicate of the better-count query in `get_rank_for_result`
(bot.py 130-137): same quiz and `score > %s OR (score = %s AND
duration_seconds < %s)` with the given score and duration as parameters. -/
def better_than (quiz_id : String) (score : Nat) (duration_seconds : Nat)
    (r : ResultRow) : Bool :=
  r.quiz_id == quiz_id &&
    (score < r.score || (r.score == score && r.duration_seconds < duration_seconds))

/-- Source `save_result` (bot.py 108-120): an append-only insert into `quiz_results`. -/
def save_result (db : List ResultRow) (r : ResultRow) : List ResultRow :=
  db ++ [r]

/-- Source `get_rank_for_result` (bot.py 123-145): `total_users` is `COUNT(*)` over
the quiz's rows, `better_count` is `COUNT(*)` over the rows satisfying
`better_than`, and the rank is `better_count + 1`. -/
def get_rank_for_result (db : List ResultRow) (quiz_id : String) (score : Nat)
    (duration_seconds : Nat) : Nat × Nat :=
  let total_users := db.countP (fun r => r.quiz_id == quiz_id)
  let better_count := db.countP (better_than quiz_id score duration_seconds)
  (better_count + 1, total_users)

/-- The result-committing tail of `finish_quiz` (bot.py 684-694): first
`save_result` inserts the row, then `get_rank_for_result` is computed over
the table that already contains it.  Returns the new table, the rank, and
`total_users`. -/
def finish_commit (db : List ResultRow) (quiz_id : String) (user_id : Nat)
    (score : Nat) (total_questions : Nat) (duration_seconds : Nat)
    (started_at : Nat) (finished_at : Nat) : List ResultRow × Nat × Nat :=
  let db' := save_result db
    { quiz_id := quiz_id, user_id := user_id, score := score,
      total_questions := total_questions, duration_seconds := duration_seconds,
      started_at := started_at, finished_at := finished_at }
  let rt := get_rank_for_result db' quiz_id score duration_seconds
  (db', rt.1, rt.2)

-- -------------------- SESSION OPERATIONS (bot.py lines 434-448, 590-666) ----

/-- The observable outcome of one resolution handler: the user's session
afterwards (`none` = deleted or absent), whether the score was incremented,
whether `send_next_question` was reached (an advance attempt), and whether
the handler aborted with an uncaught exception. -/
structure PAOut where
  session : Option Session
  scoreInc : Nat
  advanced : Bool
  crashed : Bool
deriving DecidableEq

/-- Source `send_next_question` (bot.py 590-633), session-level: when `index` has
passed the end, `finish_quiz` runs and deletes the session (`none`); else
the question at `index` is published as a poll with fresh id `fresh`, the
poll id is recorded in `poll_to_index`, and `index` is incremented.  Result
committing on the finish path is modelled by `finish_commit` separately. -/
def send_next_question (s : Session) (fresh : String) : Option Session :=
  if s.index ≥ s.questions.length then
    none
  else
    some { s with poll_to_index := (fresh, s.index) :: s.poll_to_index,
                  index := s.index + 1 }

/-- Source `question_timeout` (bot.py 434-448): no-op when the session is absent or
the index is already answered; otherwise marks it answered (no score
change) and sends the next question. -/
def question_timeout (sess : Option Session) (question_index : Nat)
    (fresh : String) : PAOut :=
  match sess with
  | none => { session := none, scoreInc := 0, advanced := false, crashed := false }
  | some s =>
    if question_index ∈ s.answered then
      { session := some s, scoreInc := 0, advanced := false, crashed := false }
    else
      let s1 := { s with answered := insert question_index s.answered }
      { session := send_next_question s1 fresh, scoreInc := 0,
        advanced := true, crashed := false }

/-- Source `poll_answer` (bot.py 636-666): no-op when the session is absent, the poll
id is unknown, or the index is already answered.  Otherwise the index is
added to `answered` first; then `option_ids[0]` is read (an `IndexError`
escapes on an empty list, after the `answered` mutation — `crashed`), the
question record is read (`session["questions"][idx]` would equally raise if
the recorded index were out of range), the score is incremented on a match,
the timeout job is cancelled, and the next question is sent. -/
def poll_answer (sess : Option Session) (poll_id : String)
    (option_ids : List Nat) (fresh : String) : PAOut :=
  match sess with
  | none => { session := none, scoreInc := 0, advanced := false, crashed := false }
  | some s =>
    match s.poll_to_index.lookup poll_id with
    | none => { session := some s, scoreInc := 0, advanced := false, crashed := false }
    | some idx =>
      if idx ∈ s.answered then
        { session := some s, scoreInc := 0, advanced := false, crashed := false }
      else
        let s1 := { s with answered := insert idx s.answered }
        match option_ids with
        | [] => { session := some s1, scoreInc := 0, advanced := false, crashed := true }
        | selected :: _ =>
          match s1.questions.get? idx with
          | none => { session := some s1, scoreInc := 0, advanced := false, crashed := true }
          | some q =>
            let inc : Nat := if selected = q.correct then 1 else 0
            let s2 := { s1 with score := s1.score + inc }
            { session := send_next_question s2 fresh, scoreInc := inc,
              advanced := true, crashed := false }

/-- Counts an advance attempt of one handler outcome as 0 or 1. -/
def advCount (o : PAOut) : Nat := if o.advanced then 1 else 0

-- -------------------- BOT FLOW (bot.py lines 26-28, 478-587) --------------------

/-- The process-wide mutable state: stored quizzes (`quizzes` table keyed by
`quiz_id`), `temp_uploads` (per user: the parsed questions), the per-user
`quiz_creation_step` with its `step` tag and pending quiz name, and
`user_sessions`.  Quiz ids are abstract strings; the fresh uuid-based id of
a new quiz is an oracle parameter. -/
structure CreationState where
  step : String
  quiz_name : String
deriving DecidableEq

structure BotState where
  db : List (String × Quiz)
  temp_uploads : List (Nat × List Question)
  quiz_creation_step : List (Nat × CreationState)
  user_sessions : List (Nat × Session)

/-- The empty process state at startup (bot.py 26-28). -/
def initial_bot_state : BotState :=
  { db := [], temp_uploads := [], quiz_creation_step := [], user_sessions := [] }

/-- Source `handle_file` (bot.py 478-505): `questions` is the outcome of
`parse_docx`/`parse_xlsx` on the downloaded file (an oracle input here);
a non-docx/xlsx filename or an empty parse leaves the state unchanged,
otherwise the questions are staged and the creation flow enters
`waiting_name`. -/
def handle_file (st : BotState) (user_id : Nat) (filename : String)
    (questions : List Question) : BotState :=
  if ¬ (py_endsWith (py_toLower filename) ".docx" || py_endsWith (py_toLower filename) ".xlsx") then st
  else if questions = [] then st
  else
    { st with
      temp_uploads := setA st.temp_uploads user_id questions,
      quiz_creation_step := setA st.quiz_creation_step user_id
        { step := "waiting_name", quiz_name := "" } }

/-- Source `handle_text` (bot.py 508-549).  `fresh_quiz_id` is the
`"q_" + uuid4` oracle.  `none` models the `KeyError` escaping from
`temp_uploads[user_id]` when the creation step exists without a staged
upload (unreachable in the real flow).  A non-digit or out-of-range timer
entry only sends an error reply: the state is unchanged. -/
def handle_text (st : BotState) (user_id : Nat) (text0 : String)
    (fresh_quiz_id : String) : Option BotState :=
  let text := py_strip text0
  match st.quiz_creation_step.lookup user_id with
  | none => some st
  | some cs =>
    if cs.step = "waiting_name" then
      let cs' : CreationState := { step := "waiting_timer", quiz_name := text }
      some { st with quiz_creation_step := setA st.quiz_creation_step user_id cs' }
    else if cs.step = "waiting_timer" then
      if ¬ py_isdigit text then some st
      else
        let seconds := py_int_of_digits text
        if seconds < 5 || 600 < seconds then some st
        else
          match st.temp_uploads.lookup user_id with
          | none => none
          | some questions =>
            some { st with
              db := st.db ++ [(fresh_quiz_id,
                { quiz_name := cs.quiz_name, questions := questions,
                  time_per_question := seconds })],
              temp_uploads := delA st.temp_uploads user_id,
              quiz_creation_step := delA st.quiz_creation_step user_id }
    else some st

/-- Applies a handler outcome to the session table: a surviving session is
stored back under the user's key, a finished/absent one is removed. -/
def applySessionOut (st : BotState) (user_id : Nat) (o : PAOut) : BotState :=
  { st with user_sessions :=
      match o.session with
      | none => delA st.user_sessions user_id
      | some s => setA st.user_sessions user_id s }

/-- Bot-level `send_next_question` (bot.py 590-633): looks the session up and
applies the session-level step. -/
def bot_send_next_question (st : BotState) (user_id : Nat) (fresh : String) : BotState :=
  match st.user_sessions.lookup user_id with
  | none => st
  | some s =>
    { st with user_sessions :=
        match send_next_question s fresh with
        | none => delA st.user_sessions user_id
        | some s' => setA st.user_sessions user_id s' }

/-- Source `start_quiz_button` (bot.py 552-587): loads the quiz, builds the
session-local shuffled question list (`qshuffle` is the question-order
shuffle oracle, `oshuffle` the per-question options-shuffle oracle),
registers the session with `index = 0`, `score = 0`, empty `answered` and
`poll_to_index`, then sends the first question. -/
def start_quiz_button (st : BotState) (user_id chat_id : Nat) (quiz_id : String)
    (qshuffle : List Question → List Question)
    (oshuffle : List String → List String)
    (now : Nat) (fresh : String) : BotState :=
  match st.db.lookup quiz_id with
  | none => st
  | some quiz_data =>
    let questions :=
      (qshuffle quiz_data.questions).map
        (fun q => shuffle_question_options q (oshuffle q.options))
    let sess : Session :=
      { quiz_id := quiz_id, chat_id := chat_id, questions := questions,
        index := 0, score := 0,
        time_per_question := quiz_data.time_per_question,
        started_at := now, answered := ∅, poll_to_index := [] }
    let st1 := { st with user_sessions := setA st.user_sessions user_id sess }
    bot_send_next_question st1 user_id fresh

/-- Bot-level `question_timeout` (bot.py 434-448). -/
def bot_question_timeout (st : BotState) (user_id question_index : Nat)
    (fresh : String) : BotState :=
  applySessionOut st user_id
    (question_timeout (st.user_sessions.lookup user_id) question_index fresh)

/-- Bot-level `poll_answer` (bot.py 636-666). -/
def bot_poll_answer (st : BotState) (user_id : Nat) (poll_id : String)
    (option_ids : List Nat) (fresh : String) : BotState :=
  applySessionOut st user_id
    (poll_answer (st.user_sessions.lookup user_id) poll_id option_ids fresh)

/-- The reachability invariant behind the safety of the division
`(score / total) * 100` in `finish_quiz` (bot.py 676): every staged upload,
every stored quiz and every live session carries a nonempty question
list. -/
def GoodState (st : BotState) : Prop :=
  (∀ p ∈ st.temp_uploads, p.2 ≠ ([] : List Question)) ∧
  (∀ p ∈ st.db, p.2.questions ≠ ([] : List Question)) ∧
  (∀ p ∈ st.user_sessions, p.2.questions ≠ ([] : List Question))

-- -------------------- HEAP MODEL (bot.py lines 166-180, 563-569) -----------

/-- A question dict as an object: the `options` value is a reference to a
string-list object; the other fields are immutable values. -/
structure PyQuestion where
  question : String
  optionsRef : Nat
  correct : Nat
  explanation : String
deriving DecidableEq

/-- A counting allocator heap for the three kinds of Python objects that the
session-preparation code reads or writes: string lists (options), question
dicts, and lists of question dicts. -/
structure Heap where
  strlists : Nat → Option (List String)
  dicts : Nat → Option PyQuestion
  qlists : Nat → Option (List Nat)
  nextRef : Nat

instance : Inhabited Heap :=
  ⟨{ strlists := fun _ => none, dicts := fun _ => none,
     qlists := fun _ => none, nextRef := 0 }⟩

def allocStrList (h : Heap) (v : List String) : Heap × Nat :=
  ({ h with strlists := fun r => if r = h.nextRef then some v else h.strlists r,
            nextRef := h.nextRef + 1 }, h.nextRef)

def allocDict (h : Heap) (v : PyQuestion) : Heap × Nat :=
  ({ h with dicts := fun r => if r = h.nextRef then some v else h.dicts r,
            nextRef := h.nextRef + 1 }, h.nextRef)

def allocQList (h : Heap) (v : List Nat) : Heap × Nat :=
  ({ h with qlists := fun r => if r = h.nextRef then some v else h.qlists r,
            nextRef := h.nextRef + 1 }, h.nextRef)

def writeDict (h : Heap) (ref : Nat) (v : PyQuestion) : Heap :=
  { h with dicts := fun r => if r = ref then some v else h.dicts r }

def writeQList (h : Heap) (ref : Nat) (v : List Nat) : Heap :=
  { h with qlists := fun r => if r = ref then some v else h.qlists r }

/-- Source `shuffle_question_options` (bot.py 166-180) at the heap level, applied to
the dict at `qref`: reads the options list through the dict's reference,
allocates the shuffled copy (`options.copy()` + `random.shuffle`, with
`oshuffle` the shuffle oracle) as a new object, and reassigns the dict's
`options` and `correct` entries in place.  `none` models the Python
exceptions: a missing object, `options[correct_index]` out of range, or
`.index` not finding the correct option. -/
def shuffle_question_options_heap (oshuffle : List String → List String)
    (h : Heap) (qref : Nat) : Option (Heap × Nat) :=
  match h.dicts qref with
  | none => none
  | some q =>
    match h.strlists q.optionsRef with
    | none => none
    | some options =>
      match options.get? q.correct with
      | none => none
      | some correct_option =>
        let new_options := oshuffle options
        let pair := allocStrList h new_options
        if correct_option ∈ new_options then
          let new_correct_index := new_options.indexOf correct_option
          some (writeDict pair.1 qref
            { q with optionsRef := pair.2, correct := new_correct_index }, qref)
        else none

/-- The list comprehension `[shuffle_question_options(q.copy()) for q in
questions]` (bot.py 569): each question dict is shallow-copied (the copy
still shares the original options-list object) and the copy is shuffled in
place. -/
def prep_questions (oshuffle : List String → List String) (h : Heap) :
    List Nat → Option (Heap × List Nat)
  | [] => some (h, [])
  | qref :: rest =>
    match h.dicts qref with
    | none => none
    | some q =>
      let pair := allocDict h q
      match shuffle_question_options_heap oshuffle pair.1 pair.2 with
      | none => none
      | some (h2, retRef) =>
        match prep_questions oshuffle h2 rest with
        | none => none
        | some (h3, restRefs) => some (h3, retRef :: restRefs)

/-- The session-preparation prefix of `start_quiz_button` (bot.py 563-569) at
the heap level: `questions = quiz_data["questions"].copy()` allocates a new
list object sharing the question-dict references, `random.shuffle`
permutes that copy in place (`qshuffle` oracle), and the comprehension
builds the session's own question list. -/
def start_quiz_prep (qshuffle : List Nat → List Nat)
    (oshuffle : List String → List String) (h : Heap) (quizQuestionsRef : Nat) :
    Option (Heap × Nat) :=
  match h.qlists quizQuestionsRef with
  | none => none
  | some qrefs =>
    let pair := allocQList h qrefs
    let h2 := writeQList pair.1 pair.2 (qshuffle qrefs)
    match prep_questions oshuffle h2 (qshuffle qrefs) with
    | none => none
    | some (h3, newRefs) =>
      let pair2 := allocQList h3 newRefs
      some (pair2.1, pair2.2)

-- -------------------- helper lemmas --------------------

/-- Python `list.index`: for a present element, `List.indexOf` is in range,
points at the element, and no earlier position holds it. -/
theorem indexOf_first_occurrence {α : Type} [DecidableEq α] (d : α) :
    ∀ (l : List α) (a : α), a ∈ l →
      l.indexOf a < l.length ∧ l.getD (l.indexOf a) d = a ∧
        ∀ j, j < l.indexOf a → l.getD j d ≠ a := by
  intro l
  induction l with
  | nil => intro a ha; cases ha
  | cons x xs ih =>
    intro a ha
    by_cases hxa : x = a
    · subst hxa
      refine ⟨by simp [List.indexOf_cons_self], by simp [List.indexOf_cons_self], ?_⟩
      intro j hj
      simp [List.indexOf_cons_self] at hj
    · have hmem : a ∈ xs := by
        rcases List.mem_cons.mp ha with h | h
        · exact absurd h.symm hxa
        · exact h
      obtain ⟨h1, h2, h3⟩ := ih a hmem
      rw [List.indexOf_cons_ne xs hxa]
      refine ⟨by simpa using Nat.succ_lt_succ h1, by simpa using h2, ?_⟩
      intro j hj
      cases j with
      | zero => simpa using hxa
      | succ j' =>
        simp only [List.getD_cons_succ]
        exact h3 j' (Nat.lt_of_succ_lt_succ hj)

/-- Counting with a pointwise weaker predicate counts no more elements. -/
theorem countP_le_of_imp {α : Type} (p q : α → Bool) :
    ∀ l : List α, (∀ a ∈ l, p a = true → q a = true) → l.countP p ≤ l.countP q := by
  intro l
  induction l with
  | nil => intro _; simp
  | cons x xs ih =>
    intro h
    simp only [List.countP_cons]
    have h1 := ih (fun a ha hp => h a (List.mem_cons_of_mem x ha) hp)
    have h2 : (if p x then 1 else 0) ≤ (if q x then 1 else 0) := by
      by_cases hp : p x = true
      · simp [hp, h x (List.mem_cons_self x xs) hp]
      · simp [Bool.not_eq_true] at hp
        simp [hp]
    omega

/-- A member satisfying the weaker predicate but not the stronger one makes
the count strictly larger. -/
theorem countP_lt_of_mem {α : Type} (p q : α → Bool) :
    ∀ (l : List α) (x : α), x ∈ l → q x = true → p x = false →
      (∀ a ∈ l, p a = true → q a = true) → l.countP p < l.countP q := by
  intro l
  induction l with
  | nil => intro x hx; cases hx
  | cons y ys ih =>
    intro x hx hq hp himp
    simp only [List.countP_cons]
    have himp' : ∀ a ∈ ys, p a = true → q a = true :=
      fun a ha hpa => himp a (List.mem_cons_of_mem _ ha) hpa
    rcases List.mem_cons.mp hx with rfl | hx'
    · have hle := countP_le_of_imp p q ys himp'
      simp only [hp, hq]
      simp
      omega
    · have hlt := ih x hx' hq hp himp'
      have h2 : (if p y then 1 else 0) ≤ (if q y then 1 else 0) := by
        by_cases hpy : p y = true
        · simp [hpy, himp y (List.mem_cons_self y ys) hpy]
        · simp [Bool.not_eq_true] at hpy
          simp [hpy]
      omega

-- -------------------- C3: shuffle correctness --------------------

/-- C3. For every question whose correct index is in range, and every
permutation `new_options` of its options (the outcome of
`random.shuffle(options.copy())`), `shuffle_question_options` keeps the
permuted list, rewrites the correct index into range, the option at the
rewritten index has the same text as the originally correct option, and
the rewritten index is the first occurrence of that text. -/
theorem shuffle_rewrites_correct_index (q : Question) (new_options : List String)
    (hperm : new_options.Perm q.options) (hlt : q.correct < q.options.length) :
    (shuffle_question_options q new_options).options = new_options ∧
    (shuffle_question_options q new_options).correct < new_options.length ∧
    new_options.getD (shuffle_question_options q new_options).correct "" =
      q.options.getD q.correct "" ∧
    ∀ j, j < (shuffle_question_options q new_options).correct →
      new_options.getD j "" ≠ q.options.getD q.correct "" := by
  have hmemo : q.options.getD q.correct "" ∈ q.options := by
    rw [List.getD_eq_getElem q.options "" hlt]
    exact List.getElem_mem hlt
  have hmem : q.options.getD q.correct "" ∈ new_options := hperm.mem_iff.mpr hmemo
  obtain ⟨h1, h2, h3⟩ := indexOf_first_occurrence "" new_options
    (q.options.getD q.correct "") hmem
  exact ⟨rfl, h1, h2, h3⟩

/-- Witness for `shuffle_rewrites_correct_index`: a 3-option question with a
duplicate of the correct text, shuffled by reversal; the rewritten index 0
is the first occurrence of `"b"`. -/
theorem shuffle_rewrites_correct_index_witness :
    (shuffle_question_options
        { question := "t", options := ["a", "b", "b"], correct := 1,
          explanation := "e" } ["b", "b", "a"]).correct < 3 ∧
    (["b", "b", "a"].getD (shuffle_question_options
        { question := "t", options := ["a", "b", "b"], correct := 1,
          explanation := "e" } ["b", "b", "a"]).correct "") = "b" := by
  have h := shuffle_rewrites_correct_index
    { question := "t", options := ["a", "b", "b"], correct := 1, explanation := "e" }
    ["b", "b", "a"] (by decide) (by decide)
  exact ⟨h.2.1, h.2.2.1⟩

-- -------------------- C2: parser invariants --------------------

/-- Every question emitted by a data row of `parse_docx_table` satisfies the
Question invariant: between 2 and 4 options and an in-range correct
index. -/
theorem parse_table_row_invariant (r : TableRow) (q : Question)
    (h : parse_table_row r = some q) :
    2 ≤ q.options.length ∧ q.options.length ≤ 4 ∧ q.correct < q.options.length := by
  have hlen4 : (([r.a_cell, r.b_cell, r.c_cell, r.d_cell].map py_strip).filter
      (fun opt => opt != "")).length ≤ 4 := by
    calc (([r.a_cell, r.b_cell, r.c_cell, r.d_cell].map py_strip).filter
            (fun opt => opt != "")).length
        ≤ ([r.a_cell, r.b_cell, r.c_cell, r.d_cell].map py_strip).length :=
          List.length_filter_le _ _
      _ = 4 := by simp
  unfold parse_table_row at h
  simp only at h
  split at h
  · simp at h
  · split at h
    · split at h
      · cases h; exact ⟨by simp, by simp, by simp⟩
      · split at h
        · cases h; exact ⟨by simp, by simp, by simp⟩
        · simp at h
    · split at h
      · simp at h
      · split at h
        · simp at h
        · split at h
          · simp at h
          · cases h
            refine ⟨?_, ?_, ?_⟩ <;> dsimp only <;> omega

/-- Same invariant for the rows of `parse_xlsx`. -/
theorem parse_xlsx_row_invariant (r : TableRow) (q : Question)
    (h : parse_xlsx_row r = some q) :
    2 ≤ q.options.length ∧ q.options.length ≤ 4 ∧ q.correct < q.options.length := by
  have hlen4 : (([r.a_cell, r.b_cell, r.c_cell, r.d_cell].map py_strip).filter
      (fun opt => opt != "")).length ≤ 4 := by
    calc (([r.a_cell, r.b_cell, r.c_cell, r.d_cell].map py_strip).filter
            (fun opt => opt != "")).length
        ≤ ([r.a_cell, r.b_cell, r.c_cell, r.d_cell].map py_strip).length :=
          List.length_filter_le _ _
      _ = 4 := by simp
  unfold parse_xlsx_row at h
  simp only at h
  split at h
  · simp at h
  · split at h
    · split at h
      · cases h; exact ⟨by simp, by simp, by simp⟩
      · split at h
        · cases h; exact ⟨by simp, by simp, by simp⟩
        · simp at h
    · split at h
      · simp at h
      · split at h
        · simp at h
        · split at h
          · simp at h
          · cases h
            refine ⟨?_, ?_, ?_⟩ <;> dsimp only <;> omega

/-- A DOCX old-format block with two options and answer letter `D`:
`Q: q` / `A) x` / `B) y` / `ANSWER: D`. -/
def c2_block : RawBlock :=
  { q_match := some "q", tf_match := false, explanation_match := none,
    answer_match := some "D", opt_A := some "x", opt_B := some "y",
    opt_C := none, opt_D := none }

/-- C2. The claim fails on the code: `parse_docx_old_format` never checks the
answer letter against the number of collected options, so the block
`Q: q / A) x / B) y / ANSWER: D` yields a question with two options whose
correct index is 3 — outside the options list, violating the invariant the
other two parsers enforce (`correct >= len(options): continue`). -/
theorem parse_docx_old_format_invariant_violation :
    parse_docx_old_format [c2_block] =
      [{ question := "q", options := ["x", "y"], correct := 3,
         explanation := "No explanation provided." }] ∧
    ∀ q ∈ parse_docx_old_format [c2_block], ¬ q.correct < q.options.length := by
  constructor
  · rfl
  · decide

-- -------------------- C4 / C5: ranking --------------------

/-- The three pre-existing results of the spec's rank-consistency scenario. -/
def c4_db : List ResultRow :=
  [{ quiz_id := "quiz1", user_id := 1, score := 8, total_questions := 10,
     duration_seconds := 50, started_at := 0, finished_at := 10 },
   { quiz_id := "quiz1", user_id := 2, score := 8, total_questions := 10,
     duration_seconds := 40, started_at := 0, finished_at := 20 },
   { quiz_id := "quiz1", user_id := 3, score := 6, total_questions := 10,
     duration_seconds := 10, started_at := 0, finished_at := 30 }]

/-- C4. The committed rank is 1 plus the number of rows of the same quiz that
score strictly higher or tie the score with strictly lower duration, and
`total_users` counts all rows of the quiz including the row just inserted
(`finish_quiz` saves the result before ranking).  On the spec's scenario —
existing results (8,50), (8,40), (6,10) and a new (8,45) — the rank is 2
and `total_users` is 4. -/
theorem committed_rank_counts_strictly_better :
    (∀ (db : List ResultRow) (qid : String) (uid s tq d sa fa : Nat),
      (finish_commit db qid uid s tq d sa fa).2.1 =
        1 + (finish_commit db qid uid s tq d sa fa).1.countP (better_than qid s d) ∧
      (finish_commit db qid uid s tq d sa fa).2.2 =
        (finish_commit db qid uid s tq d sa fa).1.countP (fun r => r.quiz_id == qid) ∧
      (finish_commit db qid uid s tq d sa fa).1 =
        db ++ [{ quiz_id := qid, user_id := uid, score := s, total_questions := tq,
                 duration_seconds := d, started_at := sa, finished_at := fa }]) ∧
    (finish_commit c4_db "quiz1" 4 8 10 45 0 100).2.1 = 2 ∧
    (finish_commit c4_db "quiz1" 4 8 10 45 0 100).2.2 = 4 := by
  refine ⟨?_, by decide, by decide⟩
  intro db qid uid s tq d sa fa
  refine ⟨?_, rfl, rfl⟩
  simp [finish_commit, get_rank_for_result, save_result, Nat.add_comm]

/-- Two finished attempts tied in score and duration, different finish times. -/
def c5_r1 : ResultRow :=
  { quiz_id := "q", user_id := 1, score := 5, total_questions := 10,
    duration_seconds := 10, started_at := 0, finished_at := 100 }

def c5_r2 : ResultRow :=
  { quiz_id := "q", user_id := 2, score := 5, total_questions := 10,
    duration_seconds := 10, started_at := 0, finished_at := 200 }

def c5_db : List ResultRow := [c5_r1, c5_r2]

/-- C5 counterexample. Finish time plays no role in `get_rank_for_result`:
with two results tied in score and duration but finished at times 100 and
200, both rank 1 — the earlier finisher does not receive a strictly lower
rank, contradicting the claim's finish-time tie-break. -/
theorem rank_ignores_finish_time_counterexample :
    c5_r1 ∈ c5_db ∧ c5_r2 ∈ c5_db ∧ c5_r1.quiz_id = c5_r2.quiz_id ∧
    c5_r1.score = c5_r2.score ∧
    c5_r1.duration_seconds = c5_r2.duration_seconds ∧
    c5_r1.finished_at < c5_r2.finished_at ∧
    (get_rank_for_result c5_db c5_r1.quiz_id c5_r1.score c5_r1.duration_seconds).1 = 1 ∧
    (get_rank_for_result c5_db c5_r2.quiz_id c5_r2.score c5_r2.duration_seconds).1 = 1 ∧
    ¬ (get_rank_for_result c5_db c5_r1.quiz_id c5_r1.score c5_r1.duration_seconds).1 <
        (get_rank_for_result c5_db c5_r2.quiz_id c5_r2.score c5_r2.duration_seconds).1 := by
  decide

/-- C5 (amended). A participant's rank orders all Results for the same
`quiz_id` by score descending, then duration ascending; two Results tied
in both score and duration receive the same rank, regardless of finish
time. -/
theorem rank_orders_by_score_then_duration
    (db : List ResultRow) (r1 r2 : ResultRow)
    (h1 : r1 ∈ db) (h2 : r2 ∈ db) (hq : r1.quiz_id = r2.quiz_id) :
    (r1.score = r2.score ∧ r1.duration_seconds = r2.duration_seconds →
      (get_rank_for_result db r1.quiz_id r1.score r1.duration_seconds).1 =
        (get_rank_for_result db r2.quiz_id r2.score r2.duration_seconds).1) ∧
    (r2.score < r1.score ∨
        (r1.score = r2.score ∧ r1.duration_seconds < r2.duration_seconds) →
      (get_rank_for_result db r1.quiz_id r1.score r1.duration_seconds).1 <
        (get_rank_for_result db r2.quiz_id r2.score r2.duration_seconds).1) := by
  constructor
  · rintro ⟨hs, hd⟩
    rw [hq, hs, hd]
  · intro hbetter
    rw [hq]
    simp only [get_rank_for_result]
    refine Nat.succ_lt_succ ?_
    refine countP_lt_of_mem _ _ db r1 h1 ?_ ?_ ?_
    · simp only [better_than, Bool.and_eq_true, Bool.or_eq_true, beq_iff_eq,
        decide_eq_true_eq]
      refine ⟨hq, ?_⟩
      rcases hbetter with h | ⟨hs, hd⟩
      · exact Or.inl h
      · exact Or.inr ⟨hs, by omega⟩
    · simp only [better_than, Bool.and_eq_true, Bool.or_eq_true, beq_iff_eq,
        decide_eq_true_eq, Bool.eq_false_iff, ne_eq]
      intro hcon
      rcases hcon with ⟨_, h | ⟨_, hd⟩⟩
      · omega
      · omega
    · intro a _ hpa
      simp only [better_than, Bool.and_eq_true, Bool.or_eq_true, beq_iff_eq,
        decide_eq_true_eq] at hpa ⊢
      obtain ⟨haq, hnum⟩ := hpa
      refine ⟨haq, ?_⟩
      rcases hbetter with h | ⟨hs, hd⟩
      · rcases hnum with h' | ⟨h1', h2'⟩
        · exact Or.inl (by omega)
        · exact Or.inl (by omega)
      · rcases hnum with h' | ⟨h1', h2'⟩
        · exact Or.inl (by omega)
        · exact Or.inr ⟨by omega, by omega⟩

/-- Witness for `rank_orders_by_score_then_duration` on the concrete tied
pair: both attempts receive the same rank. -/
theorem rank_orders_by_score_then_duration_witness :
    (get_rank_for_result c5_db c5_r1.quiz_id c5_r1.score c5_r1.duration_seconds).1 =
      (get_rank_for_result c5_db c5_r2.quiz_id c5_r2.score c5_r2.duration_seconds).1 :=
  (rank_orders_by_score_then_duration c5_db c5_r1 c5_r2 (by decide) (by decide)
    rfl).1 ⟨rfl, rfl⟩

-- -------------------- session-operation lemmas --------------------

theorem question_timeout_noop_answered (s : Session) (i : Nat) (f : String)
    (hi : i ∈ s.answered) :
    question_timeout (some s) i f =
      { session := some s, scoreInc := 0, advanced := false, crashed := false } := by
  simp [question_timeout, hi]

theorem question_timeout_resolves (s : Session) (i : Nat) (f : String)
    (hi : i ∉ s.answered) :
    question_timeout (some s) i f =
      { session := send_next_question { s with answered := insert i s.answered } f,
        scoreInc := 0, advanced := true, crashed := false } := by
  simp [question_timeout, hi]

theorem poll_answer_noop_unknown (s : Session) (pid : String) (opts : List Nat)
    (f : String) (h : s.poll_to_index.lookup pid = none) :
    poll_answer (some s) pid opts f =
      { session := some s, scoreInc := 0, advanced := false, crashed := false } := by
  simp [poll_answer, h]

theorem poll_answer_noop_answered (s : Session) (pid : String) (i : Nat)
    (opts : List Nat) (f : String) (hmap : s.poll_to_index.lookup pid = some i)
    (hi : i ∈ s.answered) :
    poll_answer (some s) pid opts f =
      { session := some s, scoreInc := 0, advanced := false, crashed := false } := by
  simp [poll_answer, hmap, hi]

theorem poll_answer_resolves_empty (s : Session) (pid : String) (i : Nat)
    (f : String) (hmap : s.poll_to_index.lookup pid = some i)
    (hi : i ∉ s.answered) :
    poll_answer (some s) pid [] f =
      { session := some { s with answered := insert i s.answered }, scoreInc := 0,
        advanced := false, crashed := true } := by
  simp [poll_answer, hmap, hi]

theorem poll_answer_resolves_cons (s : Session) (pid : String) (i sel : Nat)
    (rest : List Nat) (f : String)
    (hmap : s.poll_to_index.lookup pid = some i) (hi : i ∉ s.answered) :
    poll_answer (some s) pid (sel :: rest) f =
      (match s.questions.get? i with
       | none =>
         { session := some { s with answered := insert i s.answered }, scoreInc := 0,
           advanced := false, crashed := true }
       | some q =>
         { session := send_next_question
             { s with answered := insert i s.answered,
                      score := s.score + (if sel = q.correct then 1 else 0) } f,
           scoreInc := (if sel = q.correct then 1 else 0), advanced := true,
           crashed := false }) := by
  simp [poll_answer, hmap, hi]

theorem send_next_question_cases (s : Session) (f : String) :
    (s.questions.length ≤ s.index ∧ send_next_question s f = none) ∨
    (s.index < s.questions.length ∧ send_next_question s f =
      some { s with poll_to_index := (f, s.index) :: s.poll_to_index,
                    index := s.index + 1 }) := by
  unfold send_next_question
  split
  · next h => exact Or.inl ⟨h, rfl⟩
  · next h => exact Or.inr ⟨by omega, rfl⟩

theorem advCount_le_one (o : PAOut) : advCount o ≤ 1 := by
  unfold advCount
  split <;> omega

theorem poll_answer_scoreInc_le_one (sess : Option Session) (pid : String)
    (opts : List Nat) (f : String) : (poll_answer sess pid opts f).scoreInc ≤ 1 := by
  rcases sess with _ | s
  · simp [poll_answer]
  · rcases hl : s.poll_to_index.lookup pid with _ | i
    · simp [poll_answer_noop_unknown s pid opts f hl]
    · by_cases hi : i ∈ s.answered
      · simp [poll_answer_noop_answered s pid i opts f hl hi]
      · rcases opts with _ | ⟨sel, rest⟩
        · simp [poll_answer_resolves_empty s pid i f hl hi]
        · rw [poll_answer_resolves_cons s pid i sel rest f hl hi]
          rcases s.questions.get? i with _ | q
          · simp
          · simp only []
            split <;> simp

/-- After `poll_answer` actually resolves index `i`, every surviving session
has `i` in its answered set. -/
theorem poll_answer_marks_answered (s : Session) (pid : String) (i : Nat)
    (opts : List Nat) (f : String) (s' : Session)
    (hmap : s.poll_to_index.lookup pid = some i)
    (hsess : (poll_answer (some s) pid opts f).session = some s') :
    i ∈ s'.answered ∨ (s' = s ∧ i ∈ s.answered) := by
  by_cases hi : i ∈ s.answered
  · by_cases hl : (poll_answer (some s) pid opts f) =
      { session := some s, scoreInc := 0, advanced := false, crashed := false }
    · rw [hl] at hsess
      cases hsess
      exact Or.inr ⟨rfl, hi⟩
    · exact absurd (poll_answer_noop_answered s pid i opts f hmap hi) hl
  · left
    rcases opts with _ | ⟨sel, rest⟩
    · rw [poll_answer_resolves_empty s pid i f hmap hi] at hsess
      cases hsess
      simp
    · rw [poll_answer_resolves_cons s pid i sel rest f hmap hi] at hsess
      rcases hq : s.questions.get? i with _ | q <;> rw [hq] at hsess
      · cases hsess
        simp
      · simp only [] at hsess
        rcases send_next_question_cases
            { s with answered := insert i s.answered,
                     score := s.score + (if sel = q.correct then 1 else 0) } f with
          ⟨_, hnone⟩ | ⟨_, hsome⟩
        · rw [hnone] at hsess
          cases hsess
        · rw [hsome] at hsess
          cases hsess
          simp

-- -------------------- C6: timeout path --------------------

/-- C6. For every session and unanswered index, the timeout marks the index
answered, changes no score, and advances: when questions remain, the
resulting session differs from the original exactly in `answered`
(gaining the index), `index` (incremented) and `poll_to_index` (gaining
the fresh poll); when the index has passed the last question, the session
finishes and is removed. -/
theorem timeout_marks_and_advances (s : Session) (i : Nat) (fresh : String)
    (hna : i ∉ s.answered) :
    (question_timeout (some s) i fresh).scoreInc = 0 ∧
    (question_timeout (some s) i fresh).advanced = true ∧
    (s.index < s.questions.length →
      (question_timeout (some s) i fresh).session =
        some { s with answered := insert i s.answered,
                      index := s.index + 1,
                      poll_to_index := (fresh, s.index) :: s.poll_to_index }) ∧
    (s.questions.length ≤ s.index →
      (question_timeout (some s) i fresh).session = none) := by
  rw [question_timeout_resolves s i fresh hna]
  refine ⟨rfl, rfl, ?_, ?_⟩
  · intro hlt
    rcases send_next_question_cases { s with answered := insert i s.answered } fresh with
      ⟨hge, _⟩ | ⟨_, hsome⟩
    · exact absurd hge (by simpa using Nat.not_le.mpr hlt)
    · simpa using hsome
  · intro hge
    rcases send_next_question_cases { s with answered := insert i s.answered } fresh with
      ⟨_, hnone⟩ | ⟨hlt, _⟩
    · simpa using hnone
    · exact absurd hlt (by simpa using Nat.not_lt.mpr hge)

/-- Witness for `timeout_marks_and_advances` on a concrete one-question
session. -/
def c6_session : Session :=
  { quiz_id := "qz", chat_id := 7, questions :=
      [{ question := "t", options := ["a", "b"], correct := 0, explanation := "e" },
       { question := "u", options := ["c", "d"], correct := 1, explanation := "e" }],
    index := 1, score := 0, time_per_question := 5, started_at := 0,
    answered := ∅, poll_to_index := [("p0", 0)] }

theorem timeout_marks_and_advances_witness :
    (question_timeout (some c6_session) 0 "p1").scoreInc = 0 ∧
    (question_timeout (some c6_session) 0 "p1").session =
      some { c6_session with answered := insert 0 c6_session.answered,
                             index := 2,
                             poll_to_index := ("p1", 1) :: c6_session.poll_to_index } := by
  have h := timeout_marks_and_advances c6_session 0 "p1" (by decide)
  exact ⟨h.1, h.2.2.1 (by decide)⟩

-- -------------------- C9: empty option_ids crash --------------------

/-- C9. An answer callback with an empty `option_ids` whose poll id maps to an
unanswered index first adds the index to the answered set, then aborts at
the unguarded `option_ids[0]` (`crashed`) before any score change, index
change or advance; the question's own timeout subsequently fires into the
suppression check and the session never advances past that question. -/
theorem empty_answer_crashes_before_scoring (s : Session) (pid : String) (i : Nat)
    (f1 f2 : String) (hmap : s.poll_to_index.lookup pid = some i)
    (hna : i ∉ s.answered) :
    poll_answer (some s) pid [] f1 =
      { session := some { s with answered := insert i s.answered }, scoreInc := 0,
        advanced := false, crashed := true } ∧
    question_timeout (some { s with answered := insert i s.answered }) i f2 =
      { session := some { s with answered := insert i s.answered }, scoreInc := 0,
        advanced := false, crashed := false } := by
  refine ⟨poll_answer_resolves_empty s pid i f1 hmap hna, ?_⟩
  exact question_timeout_noop_answered _ i f2 (by simp)

/-- Witness for `empty_answer_crashes_before_scoring` on a concrete session. -/
def c9_session : Session :=
  { quiz_id := "qz", chat_id := 7, questions :=
      [{ question := "t", options := ["a", "b"], correct := 0, explanation := "e" }],
    index := 1, score := 0, time_per_question := 5, started_at := 0,
    answered := ∅, poll_to_index := [("p0", 0)] }

theorem empty_answer_crashes_before_scoring_witness :
    poll_answer (some c9_session) "p0" [] "f1" =
      { session := some { c9_session with answered := insert 0 c9_session.answered },
        scoreInc := 0, advanced := false, crashed := true } :=
  (empty_answer_crashes_before_scoring c9_session "p0" 0 "f1" "f2" (by decide)
    (by decide)).1

-- -------------------- C1: at-most-once resolution --------------------

/-- C1. For a session and a question index correlated by poll id `poll_id`
(and a fresh poll id `f2 ≠ poll_id` for anything published meanwhile), the
answer handler and the timeout handler together produce at most one score
increment and at most one advance, whichever fires first (the runtime
serializes the two handlers, so the two orders cover all firings); and a
resolution attempt is a no-op when the session is absent, when the poll id
is unknown, or when the index is already answered. -/
theorem resolution_at_most_once (s : Session) (poll_id : String) (i : Nat)
    (option_ids : List Nat) (f1 f2 : String)
    (hmap : s.poll_to_index.lookup poll_id = some i)
    (hf2 : f2 ≠ poll_id) :
    ((poll_answer (some s) poll_id option_ids f1).scoreInc +
        (question_timeout (poll_answer (some s) poll_id option_ids f1).session
          i f2).scoreInc ≤ 1 ∧
      advCount (poll_answer (some s) poll_id option_ids f1) +
        advCount (question_timeout (poll_answer (some s) poll_id option_ids f1).session
          i f2) ≤ 1) ∧
    ((question_timeout (some s) i f2).scoreInc +
        (poll_answer (question_timeout (some s) i f2).session poll_id
          option_ids f1).scoreInc ≤ 1 ∧
      advCount (question_timeout (some s) i f2) +
        advCount (poll_answer (question_timeout (some s) i f2).session poll_id
          option_ids f1) ≤ 1) ∧
    poll_answer none poll_id option_ids f1 =
      { session := none, scoreInc := 0, advanced := false, crashed := false } ∧
    question_timeout none i f2 =
      { session := none, scoreInc := 0, advanced := false, crashed := false } ∧
    (∀ pid, s.poll_to_index.lookup pid = none →
      poll_answer (some s) pid option_ids f1 =
        { session := some s, scoreInc := 0, advanced := false, crashed := false }) ∧
    (i ∈ s.answered →
      poll_answer (some s) poll_id option_ids f1 =
        { session := some s, scoreInc := 0, advanced := false, crashed := false } ∧
      question_timeout (some s) i f2 =
        { session := some s, scoreInc := 0, advanced := false, crashed := false }) := by
  refine ⟨?_, ?_, rfl, rfl,
    fun pid h => poll_answer_noop_unknown s pid option_ids f1 h,
    fun hi => ⟨poll_answer_noop_answered s poll_id i option_ids f1 hmap hi,
      question_timeout_noop_answered s i f2 hi⟩⟩
  · -- the answer fires first, then the timeout for the same index
    by_cases hi : i ∈ s.answered
    · rw [poll_answer_noop_answered s poll_id i option_ids f1 hmap hi]
      rw [question_timeout_noop_answered s i f2 hi]
      simp [advCount]
    · rcases option_ids with _ | ⟨sel, rest⟩
      · rw [poll_answer_resolves_empty s poll_id i f1 hmap hi]
        rw [question_timeout_noop_answered _ i f2 (by simp)]
        simp [advCount]
      · rw [poll_answer_resolves_cons s poll_id i sel rest f1 hmap hi]
        rcases hq : s.questions.get? i with _ | q <;> simp only [hq]
        · rw [question_timeout_noop_answered _ i f2 (by simp)]
          simp [advCount]
        · rcases send_next_question_cases
              { s with answered := insert i s.answered,
                       score := s.score + (if sel = q.correct then 1 else 0) } f1 with
            ⟨_, hnone⟩ | ⟨_, hsome⟩
          · rw [hnone]
            by_cases hc : sel = q.correct <;> simp [hc, question_timeout, advCount]
          · rw [hsome]
            rw [question_timeout_noop_answered _ i f2 (by simp)]
            by_cases hc : sel = q.correct <;> simp [hc, advCount]
  · -- the timeout fires first, then the answer for the same poll
    by_cases hi : i ∈ s.answered
    · rw [question_timeout_noop_answered s i f2 hi]
      rw [poll_answer_noop_answered s poll_id i option_ids f1 hmap hi]
      simp [advCount]
    · rw [question_timeout_resolves s i f2 hi]
      rcases send_next_question_cases { s with answered := insert i s.answered } f2 with
        ⟨_, hnone⟩ | ⟨_, hsome⟩
      · rw [hnone]
        simp [poll_answer, advCount]
      · rw [hsome]
        have hne : (poll_id == f2) = false := beq_eq_false_iff_ne.mpr (Ne.symm hf2)
        rw [poll_answer_noop_answered _ poll_id i option_ids f1 ?_ (by simp)]
        · simp [advCount]
        · show List.lookup poll_id ((f2, s.index) :: s.poll_to_index) = some i
          simp [List.lookup, hne, hmap]

/-- Witness for `resolution_at_most_once` on a concrete session: the answer
resolves, the following timeout is suppressed. -/
def c1_session : Session :=
  { quiz_id := "qz", chat_id := 7, questions :=
      [{ question := "t", options := ["a", "b"], correct := 0, explanation := "e" }],
    index := 1, score := 0, time_per_question := 5, started_at := 0,
    answered := ∅, poll_to_index := [("p0", 0)] }

theorem resolution_at_most_once_witness :
    (poll_answer (some c1_session) "p0" [0] "f1").scoreInc +
      (question_timeout (poll_answer (some c1_session) "p0" [0] "f1").session
        0 "f2").scoreInc ≤ 1 ∧
    advCount (poll_answer (some c1_session) "p0" [0] "f1") +
      advCount (question_timeout (poll_answer (some c1_session) "p0" [0] "f1").session
        0 "f2") ≤ 1 :=
  (resolution_at_most_once c1_session "p0" 0 [0] "f1" "f2" (by decide) (by decide)).1

-- -------------------- dict and flow lemmas --------------------

theorem mem_setA {α : Type} (l : List (Nat × α)) (k : Nat) (v : α) (p : Nat × α)
    (h : p ∈ setA l k v) : p = (k, v) ∨ p ∈ l := by
  unfold setA at h
  rcases List.mem_cons.mp h with h' | h'
  · exact Or.inl h'
  · exact Or.inr (List.mem_of_mem_filter h')

theorem mem_delA {α : Type} (l : List (Nat × α)) (k : Nat) (p : Nat × α)
    (h : p ∈ delA l k) : p ∈ l :=
  List.mem_of_mem_filter h

theorem lookup_mem {α β : Type} [BEq α] [LawfulBEq α] :
    ∀ (l : List (α × β)) (k : α) (v : β), l.lookup k = some v → (k, v) ∈ l := by
  intro l
  induction l with
  | nil => intro k v h; cases h
  | cons p rest ih =>
    intro k v h
    obtain ⟨a, b⟩ := p
    simp only [List.lookup] at h
    split at h
    · next heq =>
      cases h
      have hk : k = a := by simpa using heq
      subst hk
      exact List.mem_cons_self _ _
    · exact List.mem_cons_of_mem _ (ih k v h)

-- -------------------- C8: timer validation at creation --------------------

/-- C8. Whenever `handle_text` completes, every quiz row in the new state is
either a pre-existing row or has `time_per_question` in `[5, 600]`; a
non-digit or out-of-range timer entry in the `waiting_timer` step leaves
the state entirely unchanged (so the flow still awaits a timer value and
nothing was saved); hence the invariant that all stored quizzes have a
timer in `[5, 600]` is preserved. -/
theorem timer_validated_at_creation (st : BotState) (u : Nat) (text0 : String)
    (fid : String) (st' : BotState)
    (h : handle_text st u text0 fid = some st') :
    (∀ p ∈ st'.db, p ∈ st.db ∨
      (5 ≤ p.2.time_per_question ∧ p.2.time_per_question ≤ 600)) ∧
    (∀ cs, st.quiz_creation_step.lookup u = some cs → cs.step = "waiting_timer" →
      (py_isdigit (py_strip text0) = false ∨ py_int_of_digits (py_strip text0) < 5 ∨
        600 < py_int_of_digits (py_strip text0)) →
      st' = st) ∧
    ((∀ p ∈ st.db, 5 ≤ p.2.time_per_question ∧ p.2.time_per_question ≤ 600) →
      ∀ p ∈ st'.db, 5 ≤ p.2.time_per_question ∧ p.2.time_per_question ≤ 600) := by
  unfold handle_text at h
  dsimp only at h
  split at h
  · -- no creation step for this user: state unchanged
    next hl =>
    cases h
    refine ⟨fun p hp => Or.inl hp, ?_, fun hall => hall⟩
    intro cs hcs
    rw [hl] at hcs
    cases hcs
  · next cs₀ hl =>
    split at h
    · -- `waiting_name`: record the name, no quiz saved
      next hstep =>
      cases h
      refine ⟨fun p hp => Or.inl hp, ?_, fun hall => hall⟩
      intro cs hcs htimer
      rw [hl] at hcs
      cases hcs
      rw [hstep] at htimer
      exact absurd htimer (by decide)
    · split at h
      · -- `waiting_timer`
        split at h
        · -- non-digit entry: rejected, state unchanged
          cases h
          exact ⟨fun p hp => Or.inl hp, fun _ _ _ _ => rfl, fun hall => hall⟩
        · next hdig =>
          split at h
          · -- out-of-range entry: rejected, state unchanged
            cases h
            exact ⟨fun p hp => Or.inl hp, fun _ _ _ _ => rfl, fun hall => hall⟩
          · -- valid entry
            next hrange =>
            split at h
            · cases h
            · next questions hup =>
              cases h
              have hdig' : py_isdigit (py_strip text0) = true := by
                by_cases hb : py_isdigit (py_strip text0) = true
                · exact hb
                · exact absurd (by simpa using hb) hdig
              have hok : 5 ≤ py_int_of_digits (py_strip text0) ∧
                  py_int_of_digits (py_strip text0) ≤ 600 := by
                rcases Bool.or_eq_false_iff.mp
                  (Bool.eq_false_iff.mpr hrange) with ⟨h5, h6⟩
                constructor
                · simpa using Nat.not_lt.mp (by simpa using h5)
                · simpa using Nat.not_lt.mp (by simpa using h6)
              refine ⟨?_, ?_, ?_⟩
              · intro p hp
                rcases List.mem_append.mp hp with hp' | hp'
                · exact Or.inl hp'
                · rcases List.mem_singleton.mp hp' with rfl
                  exact Or.inr ⟨hok.1, hok.2⟩
              · intro cs hcs _ hbad
                rw [hl] at hcs
                cases hcs
                rcases hbad with hbad | hbad | hbad
                · rw [hbad] at hdig'
                  cases hdig'
                · omega
                · omega
              · intro hall p hp
                rcases List.mem_append.mp hp with hp' | hp'
                · exact hall p hp'
                · rcases List.mem_singleton.mp hp' with rfl
                  exact ⟨hok.1, hok.2⟩
      · -- some other step value: state unchanged
        next hname htimer =>
        cases h
        refine ⟨fun p hp => Or.inl hp, ?_, fun hall => hall⟩
        intro cs hcs hstep
        rw [hl] at hcs
        cases hcs
        exact absurd hstep htimer

/-- Witness for `timer_validated_at_creation`: an out-of-range entry `1000`
leaves the staged state unchanged. -/
def c8_state : BotState :=
  { db := [], temp_uploads := [(1,
      [{ question := "t", options := ["a", "b"], correct := 0, explanation := "e" }])],
    quiz_creation_step := [(1, { step := "waiting_timer", quiz_name := "n" })],
    user_sessions := [] }

theorem timer_validated_at_creation_witness :
    c8_state = c8_state ∧ ∀ p ∈ c8_state.db, p ∈ c8_state.db ∨
      (5 ≤ p.2.time_per_question ∧ p.2.time_per_question ≤ 600) := by
  have h := timer_validated_at_creation c8_state 1 "1000" "q_1" c8_state rfl
  exact ⟨h.2.1 { step := "waiting_timer", quiz_name := "n" } (by decide) rfl
    (by right; right; decide), h.1⟩

-- -------------------- C10: nonempty questions along the public flow ---------

theorem send_next_question_questions (s : Session) (f : String) (s' : Session)
    (h : send_next_question s f = some s') : s'.questions = s.questions := by
  rcases send_next_question_cases s f with ⟨_, hn⟩ | ⟨_, hs⟩
  · rw [hn] at h; cases h
  · rw [hs] at h; cases h; rfl

theorem question_timeout_questions (sess : Option Session) (i : Nat) (f : String)
    (s' : Session) (h : (question_timeout sess i f).session = some s') :
    ∃ s, sess = some s ∧ s'.questions = s.questions := by
  rcases sess with _ | s
  · simp [question_timeout] at h
  · refine ⟨s, rfl, ?_⟩
    by_cases hi : i ∈ s.answered
    · rw [question_timeout_noop_answered s i f hi] at h; cases h; rfl
    · rw [question_timeout_resolves s i f hi] at h
      exact send_next_question_questions
        { s with answered := insert i s.answered } f s' h

theorem poll_answer_questions (sess : Option Session) (pid : String)
    (opts : List Nat) (f : String) (s' : Session)
    (h : (poll_answer sess pid opts f).session = some s') :
    ∃ s, sess = some s ∧ s'.questions = s.questions := by
  rcases sess with _ | s
  · simp [poll_answer] at h
  · refine ⟨s, rfl, ?_⟩
    rcases hl : s.poll_to_index.lookup pid with _ | i
    · rw [poll_answer_noop_unknown s pid opts f hl] at h; cases h; rfl
    · by_cases hi : i ∈ s.answered
      · rw [poll_answer_noop_answered s pid i opts f hl hi] at h; cases h; rfl
      · rcases opts with _ | ⟨sel, rest⟩
        · rw [poll_answer_resolves_empty s pid i f hl hi] at h; cases h; rfl
        · rw [poll_answer_resolves_cons s pid i sel rest f hl hi] at h
          rcases hq : s.questions.get? i with _ | q <;> rw [hq] at h
          · cases h; rfl
          · exact send_next_question_questions
              { s with answered := insert i s.answered,
                       score := s.score + (if sel = q.correct then 1 else 0) } f s' h

theorem goodstate_applySessionOut (st : BotState) (u : Nat) (o : PAOut)
    (hst : GoodState st)
    (hq : ∀ s', o.session = some s' → s'.questions ≠ []) :
    GoodState (applySessionOut st u o) := by
  obtain ⟨h1, h2, h3⟩ := hst
  refine ⟨h1, h2, ?_⟩
  intro p hp
  unfold applySessionOut at hp
  dsimp only at hp
  rcases ho : o.session with _ | s' <;> rw [ho] at hp
  · exact h3 p (mem_delA _ _ _ hp)
  · rcases mem_setA _ _ _ _ hp with rfl | hp'
    · exact hq s' ho
    · exact h3 p hp'

theorem goodstate_handle_file (st : BotState) (u : Nat) (fn : String)
    (qs : List Question) (hst : GoodState st) : GoodState (handle_file st u fn qs) := by
  obtain ⟨h1, h2, h3⟩ := hst
  unfold handle_file
  split
  · exact ⟨h1, h2, h3⟩
  · split
    · exact ⟨h1, h2, h3⟩
    · next hne =>
      refine ⟨?_, h2, h3⟩
      intro p hp
      rcases mem_setA _ _ _ _ hp with rfl | hp'
      · exact hne
      · exact h1 p hp'

theorem goodstate_handle_text (st : BotState) (u : Nat) (t fid : String)
    (st' : BotState) (h : handle_text st u t fid = some st') (hst : GoodState st) :
    GoodState st' := by
  obtain ⟨h1, h2, h3⟩ := hst
  unfold handle_text at h
  dsimp only at h
  split at h
  · cases h; exact ⟨h1, h2, h3⟩
  · split at h
    · cases h; exact ⟨h1, h2, h3⟩
    · split at h
      · split at h
        · cases h; exact ⟨h1, h2, h3⟩
        · split at h
          · cases h; exact ⟨h1, h2, h3⟩
          · split at h
            · cases h
            · next questions hup =>
              cases h
              refine ⟨fun p hp => h1 p (mem_delA _ _ _ hp), ?_, h3⟩
              intro p hp
              rcases List.mem_append.mp hp with hp' | hp'
              · exact h2 p hp'
              · rcases List.mem_singleton.mp hp' with rfl
                exact h1 (u, questions) (lookup_mem _ _ _ hup)
      · cases h; exact ⟨h1, h2, h3⟩

theorem goodstate_bot_send_next (st : BotState) (u : Nat) (f : String)
    (hst : GoodState st) : GoodState (bot_send_next_question st u f) := by
  obtain ⟨h1, h2, h3⟩ := hst
  unfold bot_send_next_question
  split
  · exact ⟨h1, h2, h3⟩
  · next s hl =>
    split
    · exact ⟨h1, h2, fun p hp => h3 p (mem_delA _ _ _ hp)⟩
    · next s' hs =>
      refine ⟨h1, h2, ?_⟩
      intro p hp
      rcases mem_setA _ _ _ _ hp with rfl | hp'
      · show s'.questions ≠ []
        rw [send_next_question_questions s f s' hs]
        exact h3 (u, s) (lookup_mem _ _ _ hl)
      · exact h3 p hp'

theorem goodstate_start_quiz (st : BotState) (u c : Nat) (qid : String)
    (qsh : List Question → List Question) (osh : List String → List String)
    (now : Nat) (fresh : String) (hperm : ∀ l, (qsh l).Perm l)
    (hst : GoodState st) :
    GoodState (start_quiz_button st u c qid qsh osh now fresh) := by
  unfold start_quiz_button
  split
  · exact hst
  · next quiz_data hl =>
    dsimp only
    apply goodstate_bot_send_next
    obtain ⟨h1, h2, h3⟩ := hst
    refine ⟨h1, h2, ?_⟩
    intro p hp
    rcases mem_setA _ _ _ _ hp with rfl | hp'
    · show ((qsh quiz_data.questions).map
        (fun q => shuffle_question_options q (osh q.options))) ≠ []
      have hq : quiz_data.questions ≠ [] := h2 (qid, quiz_data) (lookup_mem _ _ _ hl)
      intro hcon
      rw [List.map_eq_nil_iff] at hcon
      have hlen := (hperm quiz_data.questions).length_eq
      rw [hcon] at hlen
      simp only [List.length_nil] at hlen
      exact hq (List.length_eq_zero.mp hlen.symm)
    · exact h3 p hp'

theorem goodstate_bot_question_timeout (st : BotState) (u i : Nat) (f : String)
    (hst : GoodState st) : GoodState (bot_question_timeout st u i f) := by
  apply goodstate_applySessionOut st u _ hst
  intro s' hs'
  obtain ⟨s, hsess, hq⟩ := question_timeout_questions _ i f s' hs'
  rw [hq]
  exact hst.2.2 (u, s) (lookup_mem _ _ _ hsess)

theorem goodstate_bot_poll_answer (st : BotState) (u : Nat) (pid : String)
    (opts : List Nat) (f : String) (hst : GoodState st) :
    GoodState (bot_poll_answer st u pid opts f) := by
  apply goodstate_applySessionOut st u _ hst
  intro s' hs'
  obtain ⟨s, hsess, hq⟩ := poll_answer_questions _ pid opts f s' hs'
  rw [hq]
  exact hst.2.2 (u, s) (lookup_mem _ _ _ hsess)

/-- C10. The empty initial state is good; `handle_file` (which refuses an
empty parse), `handle_text`, `start_quiz_button` (for any permuting
question shuffle) and both resolution handlers preserve goodness; and in
any good state every live session — in particular the one `finish_quiz`
reads before dividing by `len(session["questions"])` — has at least one
question. -/
theorem finish_division_safe :
    GoodState initial_bot_state ∧
    (∀ st u fn qs, GoodState st → GoodState (handle_file st u fn qs)) ∧
    (∀ st u t fid st', GoodState st → handle_text st u t fid = some st' →
      GoodState st') ∧
    (∀ st u c qid qsh osh now fresh, (∀ l, (qsh l).Perm l) → GoodState st →
      GoodState (start_quiz_button st u c qid qsh osh now fresh)) ∧
    (∀ st u i f, GoodState st → GoodState (bot_question_timeout st u i f)) ∧
    (∀ st u pid opts f, GoodState st → GoodState (bot_poll_answer st u pid opts f)) ∧
    (∀ st u s, GoodState st → st.user_sessions.lookup u = some s →
      1 ≤ s.questions.length) := by
  refine ⟨?_, fun st u fn qs h => goodstate_handle_file st u fn qs h,
    fun st u t fid st' h hh => goodstate_handle_text st u t fid st' hh h,
    fun st u c qid qsh osh now fresh hp h =>
      goodstate_start_quiz st u c qid qsh osh now fresh hp h,
    fun st u i f h => goodstate_bot_question_timeout st u i f h,
    fun st u pid opts f h => goodstate_bot_poll_answer st u pid opts f h, ?_⟩
  · refine ⟨?_, ?_, ?_⟩ <;> intro p hp <;> simp [initial_bot_state] at hp
  · intro st u s hst hl
    exact List.length_pos.mpr (hst.2.2 (u, s) (lookup_mem _ _ _ hl))

/-- Witness for `finish_division_safe` on a concrete good state holding one
session. -/
def c10_session : Session :=
  { quiz_id := "qz", chat_id := 7, questions :=
      [{ question := "t", options := ["a", "b"], correct := 0, explanation := "e" }],
    index := 0, score := 0, time_per_question := 5, started_at := 0,
    answered := ∅, poll_to_index := [] }

def c10_state : BotState :=
  { db := [], temp_uploads := [], quiz_creation_step := [],
    user_sessions := [(1, c10_session)] }

theorem finish_division_safe_witness : 1 ≤ c10_session.questions.length := by
  have hgood : GoodState c10_state := by
    refine ⟨?_, ?_, ?_⟩ <;> intro p hp
    · simp [c10_state] at hp
    · simp [c10_state] at hp
    · have hp' : p = (1, c10_session) := by simpa [c10_state] using hp
      rw [hp']
      decide
  exact finish_division_safe.2.2.2.2.2.2 c10_state 1 c10_session hgood rfl

-- -------------------- C7: session prep never mutates the quiz --------------

/-- All three object stores agree on every reference below `n`. -/
def heapAgreesBelow (n : Nat) (h h' : Heap) : Prop :=
  ∀ r, r < n →
    h'.strlists r = h.strlists r ∧ h'.dicts r = h.dicts r ∧ h'.qlists r = h.qlists r

theorem heapAgreesBelow_refl (n : Nat) (h : Heap) : heapAgreesBelow n h h :=
  fun _ _ => ⟨rfl, rfl, rfl⟩

theorem heapAgreesBelow_trans {n : Nat} {h1 h2 h3 : Heap}
    (a : heapAgreesBelow n h1 h2) (b : heapAgreesBelow n h2 h3) :
    heapAgreesBelow n h1 h3 := by
  intro r hr
  obtain ⟨a1, a2, a3⟩ := a r hr
  obtain ⟨b1, b2, b3⟩ := b r hr
  exact ⟨b1.trans a1, b2.trans a2, b3.trans a3⟩

theorem allocStrList_agrees (h : Heap) (v : List String) (n : Nat)
    (hn : n ≤ h.nextRef) :
    heapAgreesBelow n h (allocStrList h v).1 ∧
    (allocStrList h v).1.nextRef = h.nextRef + 1 ∧ (allocStrList h v).2 = h.nextRef := by
  refine ⟨?_, rfl, rfl⟩
  intro r hr
  refine ⟨?_, rfl, rfl⟩
  show (if r = h.nextRef then some v else h.strlists r) = h.strlists r
  rw [if_neg (by omega)]

theorem allocDict_agrees (h : Heap) (v : PyQuestion) (n : Nat)
    (hn : n ≤ h.nextRef) :
    heapAgreesBelow n h (allocDict h v).1 ∧
    (allocDict h v).1.nextRef = h.nextRef + 1 ∧ (allocDict h v).2 = h.nextRef := by
  refine ⟨?_, rfl, rfl⟩
  intro r hr
  refine ⟨rfl, ?_, rfl⟩
  show (if r = h.nextRef then some v else h.dicts r) = h.dicts r
  rw [if_neg (by omega)]

theorem allocQList_agrees (h : Heap) (v : List Nat) (n : Nat)
    (hn : n ≤ h.nextRef) :
    heapAgreesBelow n h (allocQList h v).1 ∧
    (allocQList h v).1.nextRef = h.nextRef + 1 ∧ (allocQList h v).2 = h.nextRef := by
  refine ⟨?_, rfl, rfl⟩
  intro r hr
  refine ⟨rfl, rfl, ?_⟩
  show (if r = h.nextRef then some v else h.qlists r) = h.qlists r
  rw [if_neg (by omega)]

theorem writeDict_agrees (h : Heap) (ref : Nat) (v : PyQuestion) (n : Nat)
    (hr : n ≤ ref) :
    heapAgreesBelow n h (writeDict h ref v) ∧ (writeDict h ref v).nextRef = h.nextRef := by
  refine ⟨?_, rfl⟩
  intro r hrn
  refine ⟨rfl, ?_, rfl⟩
  show (if r = ref then some v else h.dicts r) = h.dicts r
  rw [if_neg (by omega)]

theorem writeQList_agrees (h : Heap) (ref : Nat) (v : List Nat) (n : Nat)
    (hr : n ≤ ref) :
    heapAgreesBelow n h (writeQList h ref v) ∧ (writeQList h ref v).nextRef = h.nextRef := by
  refine ⟨?_, rfl⟩
  intro r hrn
  refine ⟨rfl, rfl, ?_⟩
  show (if r = ref then some v else h.qlists r) = h.qlists r
  rw [if_neg (by omega)]

/-- The in-place option shuffle of one (freshly copied) question dict touches
only that dict and fresh references. -/
theorem shuffle_heap_frame (osh : List String → List String) (h : Heap)
    (qref : Nat) (h' : Heap) (r : Nat)
    (heq : shuffle_question_options_heap osh h qref = some (h', r))
    (n : Nat) (hn : n ≤ h.nextRef) (hq : n ≤ qref) :
    heapAgreesBelow n h h' ∧ h.nextRef ≤ h'.nextRef := by
  unfold shuffle_question_options_heap at heq
  rcases hdq : h.dicts qref with _ | q
  · rw [hdq] at heq; cases heq
  · rw [hdq] at heq; dsimp only at heq
    rcases hopt : h.strlists q.optionsRef with _ | options
    · rw [hopt] at heq; cases heq
    · rw [hopt] at heq; dsimp only at heq
      rcases hco : options.get? q.correct with _ | correct_option
      · rw [hco] at heq; cases heq
      · rw [hco] at heq
        dsimp only at heq
        split at heq
        · cases heq
          obtain ⟨ha, han, _⟩ := allocStrList_agrees h (osh options) n hn
          obtain ⟨hw, hwn⟩ := writeDict_agrees (allocStrList h (osh options)).1 qref
            { q with optionsRef := (allocStrList h (osh options)).2,
                     correct := (osh options).indexOf correct_option } n hq
          refine ⟨heapAgreesBelow_trans ha hw, ?_⟩
          rw [hwn, han]
          omega
        · cases heq

/-- The list comprehension over the session's question refs touches only
fresh references. -/
theorem prep_questions_frame (osh : List String → List String) :
    ∀ (refs : List Nat) (h h' : Heap) (out : List Nat),
      prep_questions osh h refs = some (h', out) → ∀ n, n ≤ h.nextRef →
      heapAgreesBelow n h h' ∧ h.nextRef ≤ h'.nextRef := by
  intro refs
  induction refs with
  | nil =>
    intro h h' out heq n hn
    unfold prep_questions at heq
    cases heq
    exact ⟨heapAgreesBelow_refl n h, Nat.le_refl _⟩
  | cons qref rest ih =>
    intro h h' out heq n hn
    unfold prep_questions at heq
    rcases hdq : h.dicts qref with _ | q
    · rw [hdq] at heq; cases heq
    · rw [hdq] at heq
      dsimp only at heq
      rcases hsh : shuffle_question_options_heap osh (allocDict h q).1
          (allocDict h q).2 with _ | ⟨h2, retRef⟩
      · rw [hsh] at heq; cases heq
      · rw [hsh] at heq
        dsimp only at heq
        rcases hrest : prep_questions osh h2 rest with _ | ⟨h3, restRefs⟩
        · rw [hrest] at heq; cases heq
        · rw [hrest] at heq
          cases heq
          obtain ⟨ha, han, hanr⟩ := allocDict_agrees h q n hn
          obtain ⟨hsha, hshn⟩ := shuffle_heap_frame osh (allocDict h q).1
            (allocDict h q).2 h2 retRef hsh n (by omega) (by omega)
          obtain ⟨hra, hrn⟩ := ih h2 _ _ hrest n (by omega)
          exact ⟨heapAgreesBelow_trans ha (heapAgreesBelow_trans hsha hra),
            by omega⟩

/-- C7. Preparing a session's question list (copying the quiz's question
list, shuffling the copy's order in place, shallow-copying each question
dict and shuffling the copy's options with a rewritten correct index)
writes only to freshly allocated objects: every object that existed before
— in particular the canonical quiz's question list, each of its question
dicts, and each of their options lists — is unchanged afterwards. -/
theorem session_prep_never_mutates_quiz (qsh : List Nat → List Nat)
    (osh : List String → List String) (h : Heap) (quizQuestionsRef : Nat)
    (h' : Heap) (r : Nat)
    (heq : start_quiz_prep qsh osh h quizQuestionsRef = some (h', r)) :
    h.nextRef ≤ h'.nextRef ∧
    ∀ ref, ref < h.nextRef →
      h'.strlists ref = h.strlists ref ∧ h'.dicts ref = h.dicts ref ∧
      h'.qlists ref = h.qlists ref := by
  unfold start_quiz_prep at heq
  rcases hql : h.qlists quizQuestionsRef with _ | qrefs
  · rw [hql] at heq; cases heq
  · rw [hql] at heq
    dsimp only at heq
    rcases hprep : prep_questions osh
        (writeQList (allocQList h qrefs).1 (allocQList h qrefs).2 (qsh qrefs))
        (qsh qrefs) with _ | ⟨h3, newRefs⟩
    · rw [hprep] at heq; cases heq
    · rw [hprep] at heq
      dsimp only at heq
      cases heq
      obtain ⟨ha1, han1, har1⟩ := allocQList_agrees h qrefs h.nextRef (Nat.le_refl _)
      obtain ⟨hw, hwn⟩ := writeQList_agrees (allocQList h qrefs).1
        (allocQList h qrefs).2 (qsh qrefs) h.nextRef (by omega)
      obtain ⟨hp, hpn⟩ := prep_questions_frame osh (qsh qrefs) _ _ _ hprep
        h.nextRef (by omega)
      obtain ⟨ha2, han2, har2⟩ := allocQList_agrees h3 newRefs h.nextRef (by omega)
      exact ⟨by omega, heapAgreesBelow_trans ha1
        (heapAgreesBelow_trans hw (heapAgreesBelow_trans hp ha2))⟩

/-- Witness heap for `session_prep_never_mutates_quiz`: one quiz whose
question list lives at ref 2, with one question dict at ref 1 whose options
list lives at ref 0. -/
def c7_heap : Heap :=
  { strlists := fun r => if r = 0 then some ["x", "y"] else none,
    dicts := fun r => if r = 1 then
        some { question := "q", optionsRef := 0, correct := 0, explanation := "e" }
      else none,
    qlists := fun r => if r = 2 then some [1] else none,
    nextRef := 3 }

theorem session_prep_never_mutates_quiz_witness :
    ((start_quiz_prep id id c7_heap 2).get!).1.strlists 0 = c7_heap.strlists 0 ∧
    ((start_quiz_prep id id c7_heap 2).get!).1.dicts 1 = c7_heap.dicts 1 ∧
    ((start_quiz_prep id id c7_heap 2).get!).1.qlists 2 = c7_heap.qlists 2 := by
  have h := session_prep_never_mutates_quiz id id c7_heap 2
    ((start_quiz_prep id id c7_heap 2).get!).1
    ((start_quiz_prep id id c7_heap 2).get!).2 rfl
  exact ⟨(h.2 0 (by decide)).1, (h.2 1 (by decide)).2.1, (h.2 2 (by decide)).2.2⟩

end QuizBot
